import Mathlib

/-!
Verification of the Task Automation Engine of claude-code-viewer.

Each definition below is a shallow embedding of a function of the
TypeScript source, translated statement by statement.  JavaScript
truthiness of optional strings and booleans is made explicit through
`truthyStr` and `truthyBool`.  JSON values are modelled by the inductive
`Json`; numbers are modelled as integers since every payload the engine
inspects carries integer counts.
-/

/-- Truthiness of an optional string: `undefined` and `""` are falsy. -/
def truthyStr : Option String → Bool
  | none => false
  | some s => !(s == "")

/-- Truthiness of an optional boolean: `undefined` is falsy. -/
def truthyBool : Option Bool → Bool
  | none => false
  | some b => b

/-- Claude liveness state, from `detection/StateDetector.ts`. -/
inductive ClaudeState where
  | running
  | idle
  | error
deriving DecidableEq, Repr

/-- Workflow status, the union type `WorkflowStatus` consumed by the
decision engines (values `completed`, `in_progress`, `no_activity` plus
the fall-through `unknown` handled by their default branches). -/
inductive WorkflowStatus where
  | completed
  | in_progress
  | no_activity
  | unknown
deriving DecidableEq, Repr

/-- Task actions, from `actions/DecisionEngine.ts` (`continue` is a Lean
keyword, rendered `cont`). -/
inductive TaskAction where
  | cont
  | pause
  | complete
  | restart
deriving DecidableEq, Repr

/-- Decision result `{action, reason, shouldExecute}`. -/
structure TaskDecision where
  action : TaskAction
  reason : String
  shouldExecute : Bool
deriving DecidableEq, Repr

/-- `DecisionEngine.createDecision`. -/
def createDecision (action : TaskAction) (reason : String)
    (shouldExecute : Bool) : TaskDecision :=
  { action := action, reason := reason, shouldExecute := shouldExecute }

/-- `DecisionEngine.decideIdleAction`: the `IdleDecisions` lookup table;
a status absent from the table falls through to the pause default. -/
def decideIdleAction (workflowStatus : WorkflowStatus)
    (canAutoContinue : Bool) : TaskDecision :=
  match workflowStatus with
  | .completed =>
      createDecision .complete "Spec-workflow completed successfully" true
  | .in_progress =>
      if canAutoContinue then
        createDecision .restart "Workflow incomplete, auto-continuing" true
      else
        createDecision .pause "Workflow incomplete, awaiting user input" true
  | .no_activity =>
      if canAutoContinue then
        createDecision .restart "No workflow activity, auto-continuing" true
      else
        createDecision .pause "No workflow activity, awaiting user input" true
  | .unknown =>
      createDecision .pause "Claude idle, awaiting user input" true

/-- `DecisionEngine.decideAction`: the `DecisionTable` over the Claude
state. -/
def decideAction (claudeState : ClaudeState)
    (workflowStatus : WorkflowStatus) (canAutoContinue : Bool) :
    TaskDecision :=
  match claudeState with
  | .error => createDecision .complete "Claude encountered an error" true
  | .running => createDecision .cont "Claude is actively processing" false
  | .idle => decideIdleAction workflowStatus canAutoContinue

/-- `TaskStateOrchestrator.decideIdleAction` (the `switch` duplicate of the
engine's table; only the `in_progress` reason string differs). -/
def orchestratorDecideIdleAction (workflowStatus : WorkflowStatus)
    (canAutoContinue : Bool) : TaskDecision :=
  match workflowStatus with
  | .completed =>
      { action := .complete
        reason := "Spec-workflow completed successfully"
        shouldExecute := true }
  | .in_progress =>
      if canAutoContinue then
        { action := .restart
          reason := "Workflow incomplete, auto-continuing with new session"
          shouldExecute := true }
      else
        { action := .pause
          reason := "Workflow incomplete, awaiting user input"
          shouldExecute := true }
  | .no_activity =>
      if canAutoContinue then
        { action := .restart
          reason := "No workflow activity, auto-continuing"
          shouldExecute := true }
      else
        { action := .pause
          reason := "No workflow activity, awaiting user input"
          shouldExecute := true }
  | .unknown =>
      { action := .pause
        reason := "Claude idle, awaiting user input"
        shouldExecute := true }

/-- `TaskStateOrchestrator.decideTaskAction`. -/
def decideTaskAction (claudeState : ClaudeState)
    (workflowStatus : WorkflowStatus) (canAutoContinue : Bool) :
    TaskDecision :=
  match claudeState with
  | .error =>
      { action := .complete
        reason := "Claude encountered an error"
        shouldExecute := true }
  | .running =>
      { action := .cont
        reason := "Claude is actively processing"
        shouldExecute := false }
  | .idle => orchestratorDecideIdleAction workflowStatus canAutoContinue

/-- Task status variants of `claude-code/types.ts`. -/
inductive TaskStatus where
  | pending
  | running
  | paused
  | completed
  | failed
deriving DecidableEq, Repr

/-- Completion condition values (`"spec-workflow" | "manual"`). -/
inductive CompletionCondition where
  | specWorkflow
  | manual
deriving DecidableEq, Repr

/-- Task record: the common fields of `BaseClaudeCodeTask` together with
the status-dependent fields, flattened (optional fields stay `Option`).
Callback fields (`generateMessages`, abort controllers, …) carry no data
relevant to the verified properties and are omitted. -/
structure CCTask where
  id : String
  projectId : String
  baseSessionId : Option String
  cwd : String
  completionCondition : Option CompletionCondition
  originalPrompt : Option String
  autoContinue : Option Bool
  lastActivity : Nat
  status : TaskStatus
  sessionId : Option String
  userMessageId : Option String
deriving DecidableEq, Repr

/-- `DecisionEngine.canTaskAutoContinue` =
`Boolean(task.autoContinue && task.originalPrompt)`. -/
def canTaskAutoContinue (task : CCTask) : Bool :=
  truthyBool task.autoContinue && truthyStr task.originalPrompt

/-- C1: the decision table of `DecisionEngine.decideAction` (and its
duplicate `TaskStateOrchestrator.decideTaskAction`): `error` yields
`complete`; `running` yields `continue` with `shouldExecute = false`;
`idle`/`completed` yields `complete`; `idle`/`in_progress` and
`idle`/`no_activity` yield `restart` when `canAutoContinue` and `pause`
otherwise; `idle`/`unknown` yields `pause`.  `canTaskAutoContinue` holds
exactly when the `autoContinue` flag is set and `originalPrompt` is
present (a non-empty string, by JavaScript truthiness). -/
theorem decisionEngine_decideAction_table :
    (∀ ws c, (decideAction .error ws c).action = .complete
      ∧ (decideAction .error ws c).shouldExecute = true)
    ∧ (∀ ws c, (decideAction .running ws c).action = .cont
      ∧ (decideAction .running ws c).shouldExecute = false)
    ∧ (∀ c, (decideAction .idle .completed c).action = .complete)
    ∧ (∀ c, (decideAction .idle .in_progress c).action
        = if c then .restart else .pause)
    ∧ (∀ c, (decideAction .idle .no_activity c).action
        = if c then .restart else .pause)
    ∧ (∀ c, (decideAction .idle .unknown c).action = .pause)
    ∧ (∀ s ws c, (decideTaskAction s ws c).action = (decideAction s ws c).action
      ∧ (decideTaskAction s ws c).shouldExecute
        = (decideAction s ws c).shouldExecute)
    ∧ (∀ task : CCTask, canTaskAutoContinue task = true
        ↔ task.autoContinue = some true
          ∧ ∃ p, task.originalPrompt = some p ∧ p ≠ "") := by
  refine ⟨fun ws c => ⟨rfl, rfl⟩, fun ws c => ⟨rfl, rfl⟩, fun c => rfl,
    fun c => ?_, fun c => ?_, fun c => rfl, fun s ws c => ?_, fun task => ?_⟩
  · cases c <;> rfl
  · cases c <;> rfl
  · cases s <;> cases ws <;> cases c <;> exact ⟨rfl, rfl⟩
  · constructor
    · intro h
      have h1 : truthyBool task.autoContinue = true := by
        cases hb : truthyBool task.autoContinue
        · simp [canTaskAutoContinue, hb] at h
        · rfl
      have h2 : truthyStr task.originalPrompt = true := by
        cases hs : truthyStr task.originalPrompt
        · simp [canTaskAutoContinue, hs] at h
        · rfl
      refine ⟨?_, ?_⟩
      · cases hab : task.autoContinue with
        | none => rw [hab] at h1; simp [truthyBool] at h1
        | some b =>
            rw [hab] at h1
            cases b
            · simp [truthyBool] at h1
            · rfl
      · cases hop : task.originalPrompt with
        | none => rw [hop] at h2; simp [truthyStr] at h2
        | some p =>
            rw [hop] at h2
            refine ⟨p, rfl, ?_⟩
            intro hp
            subst hp
            simp [truthyStr] at h2
    · rintro ⟨hb, p, hp, hpne⟩
      simp [canTaskAutoContinue, truthyBool, truthyStr, hb, hp]
      intro h
      exact absurd h hpne

/-- Content of a stream message, as inspected by the detector: a string,
some non-string value, or absent. -/
inductive SDContent where
  | cstr (s : String)
  | cother
  | cnone
deriving DecidableEq, Repr

/-- Message shape `ClaudeCodeMessage` of `detection/StateDetector.ts`. -/
structure SDMessage where
  type : String
  error : Option String
  content : SDContent
deriving DecidableEq, Repr

/-- Check of a character list for the substring `"error"`, the
`content.includes("error")` test. -/
def charsStartErr : List Char → Bool
  | 'e' :: 'r' :: 'r' :: 'o' :: 'r' :: _ => true
  | _ => false

/-- Recursive scan for `"error"` anywhere in a character list. -/
def charsHasErr : List Char → Bool
  | [] => false
  | c :: rest => charsStartErr (c :: rest) || charsHasErr rest

/-- String form of the `includes("error")` test. -/
def strHasErr (s : String) : Bool :=
  charsHasErr s.data

/-- `StateDetector.hasError`: explicit error marker detection. -/
def sdHasError (message : Option SDMessage) : Bool :=
  match message with
  | none => false
  | some m =>
      m.type == "error" || truthyStr m.error ||
        (m.type == "system" &&
          (match m.content with
           | .cstr s => strHasErr s
           | _ => false))

/-- `StateDetector.hasTimedOut`: `lastActivity` of `undefined` (or `0`,
both falsy) never times out; otherwise the inactivity age is compared
against the two-minute threshold. -/
def sdHasTimedOut (now : Nat) (lastActivity : Option Nat) : Bool :=
  match lastActivity with
  | none => false
  | some la => if la == 0 then false else decide (now - la > 120000)

/-- `StateDetector.detectActivity`: the three `ActivityRules`. -/
def sdDetectActivity (message : Option SDMessage) (isLastMessage : Bool) :
    ClaudeState :=
  let messageType : Option String := message.map (·.type)
  let isToolActivity :=
    match messageType with
    | some t => ["tool_use", "tool_result"].contains t
    | none => false
  let isFinishedResponse := isLastMessage && messageType == some "assistant"
  let isOngoingActivity :=
    if !isLastMessage then
      match messageType with
      | some t => ["user", "assistant"].contains t
      | none => false
    else false
  if isToolActivity then .running
  else if isFinishedResponse then .idle
  else if isOngoingActivity then .running
  else .idle

/-- `StateDetector.detectState`: error marker, then timeout, then
activity heuristics. -/
def sdDetectState (now : Nat) (message : Option SDMessage)
    (isLastMessage : Bool) (lastActivity : Option Nat) : ClaudeState :=
  if sdHasError message then .error
  else if sdHasTimedOut now lastActivity then .idle
  else sdDetectActivity message isLastMessage

/-- C10 counterexample: a non-last message of type `result` carries no
error marker and no timeout is in effect, yet the detector yields `idle`,
where the claim demands `running` for every such "other" message type. -/
theorem stateDetector_other_nonlast_cex :
    sdHasError (some ⟨"result", none, .cnone⟩) = false
    ∧ sdHasTimedOut 0 none = false
    ∧ sdDetectState 0 (some ⟨"result", none, .cnone⟩) false none
        = ClaudeState.idle
    ∧ ClaudeState.idle ≠ ClaudeState.running := by
  refine ⟨rfl, rfl, rfl, ?_⟩
  decide

/-- C10 amended: for every message with no error marker and no timeout in
effect, `tool_use`/`tool_result` yield `running`; a non-last `user` or
`assistant` message yields `running`; every other case — a last message
that is not a tool message, or a non-last message whose type is outside
`user`/`assistant` — yields `idle`. -/
theorem stateDetector_activity (now : Nat) (m : SDMessage)
    (isLast : Bool) (lastActivity : Option Nat)
    (hne : sdHasError (some m) = false)
    (hnt : sdHasTimedOut now lastActivity = false) :
    sdDetectState now (some m) isLast lastActivity
      = (if m.type == "tool_use" || m.type == "tool_result" then .running
         else if !isLast && (m.type == "user" || m.type == "assistant") then
           .running
         else .idle) := by
  rw [sdDetectState, hne, hnt]
  simp only [Bool.false_eq_true, if_false]
  rw [sdDetectActivity]
  by_cases h1 : m.type = "tool_use"
  · cases isLast <;>
      simp [h1, List.contains, List.elem]
  · by_cases h2 : m.type = "tool_result"
    · cases isLast <;>
        simp [h2, List.contains, List.elem]
    · by_cases h3 : m.type = "user"
      · cases isLast <;>
          simp [h3, List.contains, List.elem]
      · by_cases h4 : m.type = "assistant"
        · cases isLast <;>
            simp [h4, List.contains, List.elem]
        · have e1 : (m.type == "tool_use") = false :=
            beq_eq_false_iff_ne.mpr h1
          have e2 : (m.type == "tool_result") = false :=
            beq_eq_false_iff_ne.mpr h2
          have e3 : (m.type == "user") = false :=
            beq_eq_false_iff_ne.mpr h3
          have e4 : (m.type == "assistant") = false :=
            beq_eq_false_iff_ne.mpr h4
          cases isLast <;>
            simp [e1, e2, e3, e4, List.contains, List.elem]

/-- C10 amended witness: a last assistant message with no error marker and
no activity timestamp is detected idle. -/
theorem stateDetector_activity_witness :
    sdDetectState 5 (some ⟨"assistant", none, .cnone⟩) true none
      = ClaudeState.idle := by
  have h := stateDetector_activity 5 ⟨"assistant", none, .cnone⟩ true none
    (by rfl) (by rfl)
  simpa using h

/-- Modelled from the spec: `TaskGuards.isAlive` of `core/task-types`
(that file is missing from the tree; only its importers survive).  The
glossary defines an alive task as one in `running` or `paused` state. -/
def isAlive (t : CCTask) : Bool :=
  t.status == .running || t.status == .paused

/-- Task registry state: the `tasks` array of `TaskLifecycleService`. -/
abbrev Registry := List CCTask

/-- `TaskLifecycleService.aliveTasks`. -/
def aliveTasks (ts : Registry) : Registry :=
  ts.filter isAlive

/-- `TaskLifecycleService.findTaskById`. -/
def findTaskById (ts : Registry) (taskId : String) : Option CCTask :=
  ts.find? (fun t => t.id == taskId)

/-- `TaskLifecycleService.findTaskBySessionId` (searches `aliveTasks`). -/
def findTaskBySessionId (ts : Registry) (sessionId : String) :
    Option CCTask :=
  (aliveTasks ts).find? (fun t => t.sessionId == some sessionId)

/-- `TaskLifecycleService.addTask` (array push). -/
def addTask (ts : Registry) (t : CCTask) : Registry :=
  ts ++ [t]

/-- Replacement of the task carrying `updatedTask.id` (the in-place
`Object.assign` of `updateTask`, on the first matching index). -/
def replaceTask : Registry → CCTask → Registry
  | [], _ => []
  | t :: rest, updated =>
      if t.id == updated.id then updated :: rest
      else t :: replaceTask rest updated

/-- `TaskLifecycleService.updateTask`: raises when no task carries the
id, otherwise assigns the update over the existing record. -/
def updateTask (ts : Registry) (updated : CCTask) :
    Except String Registry :=
  match findTaskById ts updated.id with
  | none => .error ("Task not found: " ++ updated.id)
  | some _ => .ok (replaceTask ts updated)

/-- `TaskLifecycleService.completeTask`: legal only from
`running`/`paused`, raising otherwise. -/
def completeTask (ts : Registry) (taskId : String) :
    Except String Registry :=
  match findTaskById ts taskId with
  | none => .error ("Task not found: " ++ taskId)
  | some task =>
      if task.status == .running || task.status == .paused then
        updateTask ts { task with status := .completed }
      else
        .error ("Cannot complete task " ++ taskId)

/-- `TaskLifecycleService.pauseTask`: raises unless the task exists in
state `running` or `paused`. -/
def pauseTask (ts : Registry) (taskId : String) :
    Except String Registry :=
  match findTaskById ts taskId with
  | none => .error ("Cannot pause task: " ++ taskId)
  | some task =>
      if task.status == .running || task.status == .paused then
        updateTask ts { task with status := .paused }
      else
        .error ("Cannot pause task: " ++ taskId)

/-- `TaskLifecycleService.failTask`: raises only when the id is unknown;
the status is overwritten to `failed` with no legality check. -/
def failTask (ts : Registry) (taskId : String) :
    Except String Registry :=
  match findTaskById ts taskId with
  | none => .error ("Task not found: " ++ taskId)
  | some task => updateTask ts { task with status := .failed }

/-- Sample completed task used by concrete counterexamples. -/
def tDoneC6 : CCTask :=
  { id := "t1", projectId := "p1", baseSessionId := none, cwd := "/w"
    completionCondition := none, originalPrompt := some "prompt"
    autoContinue := some true, lastActivity := 0, status := .completed
    sessionId := some "s1", userMessageId := some "u1" }

/-- C6 counterexample: `failTask` on a task already in the terminal state
`completed` does not raise — it silently moves the task to `failed`,
violating the claim that all three mutators raise on terminal tasks. -/
theorem failTask_terminal_cex :
    findTaskById [tDoneC6] "t1" = some tDoneC6
    ∧ tDoneC6.status = TaskStatus.completed
    ∧ failTask [tDoneC6] "t1"
        = Except.ok [{ tDoneC6 with status := TaskStatus.failed }] := by
  exact ⟨rfl, rfl, rfl⟩

/-- C6 amended: for a task found in a terminal state (`completed` or
`failed`), `completeTask` and `pauseTask` raise; `failTask` does not — it
succeeds and forces the status to `failed`. -/
theorem registry_terminal_mutations (ts : Registry) (t : CCTask)
    (taskId : String) (hfind : findTaskById ts taskId = some t)
    (hterm : t.status = TaskStatus.completed
      ∨ t.status = TaskStatus.failed) :
    (∃ e, completeTask ts taskId = .error e)
    ∧ (∃ e, pauseTask ts taskId = .error e)
    ∧ (∃ ts2, failTask ts taskId = .ok ts2) := by
  have hst : (t.status == TaskStatus.running
      || t.status == TaskStatus.paused) = false := by
    rcases hterm with h | h <;> rw [h] <;> rfl
  have hid : t.id = taskId := by
    have := List.find?_some hfind
    simpa using this
  refine ⟨⟨"Cannot complete task " ++ taskId, ?_⟩,
    ⟨"Cannot pause task: " ++ taskId, ?_⟩, ?_⟩
  · simp only [completeTask, hfind, hst, Bool.false_eq_true, if_false]
  · simp only [pauseTask, hfind, hst, Bool.false_eq_true, if_false]
  · refine ⟨replaceTask ts { t with status := .failed }, ?_⟩
    simp only [failTask, hfind, updateTask]
    have hfind2 : findTaskById ts ({ t with status := TaskStatus.failed }).id
        = some t := by
      show findTaskById ts t.id = some t
      rw [hid]
      exact hfind
    rw [hfind2]

/-- C6 amended witness: instantiated on a one-task registry holding a
completed task. -/
theorem registry_terminal_mutations_witness :
    (∃ e, completeTask [tDoneC6] "t1" = .error e)
    ∧ (∃ e, pauseTask [tDoneC6] "t1" = .error e)
    ∧ (∃ ts2, failTask [tDoneC6] "t1" = .ok ts2) :=
  registry_terminal_mutations [tDoneC6] tDoneC6 "t1" rfl (Or.inl rfl)

/-- JSON values, as produced by `JSON.parse`; numbers are modelled as
integers, every count-carrying payload the engine inspects being
integral. -/
inductive Json where
  | null
  | jbool (b : Bool)
  | num (n : Int)
  | str (s : String)
  | arr (items : List Json)
  | obj (fields : List (String × Json))
deriving BEq, Repr

/-- Truthiness of a JSON value (objects and arrays are truthy). -/
def jsonTruthy : Json → Bool
  | .null => false
  | .jbool b => b
  | .num n => !(n == 0)
  | .str s => !(s == "")
  | .arr _ => true
  | .obj _ => true

/-- Field lookup on an object field list (first match, like property
access). -/
def lookupField (fields : List (String × Json)) (key : String) :
    Option Json :=
  List.lookup key fields

/-- Fields of an object value; every other value has none. -/
def objFields : Json → List (String × Json)
  | .obj fs => fs
  | _ => []

/-- Zod validation issue: the `path` and `code` fields inspected by
`createStructureError` (missing or mistyped required keys are reported
with code `invalid_type`, matching zod). -/
structure ZodIssue where
  path : List String
  code : String
deriving DecidableEq, Repr

/-- Issue for one numeric field of the summary object, as zod reports it
for `z.number()` / `z.number().optional()`. -/
def checkNumField (base : List String) (key : String)
    (fields : List (String × Json)) (required : Bool) : List ZodIssue :=
  match lookupField fields key with
  | some (.num _) => []
  | some _ => [⟨base ++ [key], "invalid_type"⟩]
  | none => if required then [⟨base ++ [key], "invalid_type"⟩] else []

/-- Issues of `SpecWorkflowDataSchema.parse` of `TaskMonitoringService.ts`
(`{success: boolean, message: string, data: {summary: {total: number,
completed: number, inProgress?: number, pending?: number}}}`); zod checks
sibling keys in parallel and does not descend below a missing or mistyped
parent. -/
def specWorkflowDataIssues (j : Json) : List ZodIssue :=
  match j with
  | .obj fs =>
      (match lookupField fs "success" with
       | some (.jbool _) => []
       | _ => [⟨["success"], "invalid_type"⟩])
      ++ (match lookupField fs "message" with
          | some (.str _) => []
          | _ => [⟨["message"], "invalid_type"⟩])
      ++ (match lookupField fs "data" with
          | some (.obj ds) =>
              (match lookupField ds "summary" with
               | some (.obj ss) =>
                   checkNumField ["data", "summary"] "total" ss true
                   ++ checkNumField ["data", "summary"] "completed" ss true
                   ++ checkNumField ["data", "summary"] "inProgress" ss false
                   ++ checkNumField ["data", "summary"] "pending" ss false
               | _ => [⟨["data", "summary"], "invalid_type"⟩])
          | _ => [⟨["data"], "invalid_type"⟩])
  | _ => [⟨[], "invalid_type"⟩]

/-- Validated spec-workflow payload (the parsed
`SpecWorkflowDataSchema`). -/
structure SWData where
  success : Bool
  message : String
  total : Int
  completed : Int
  inProgress : Option Int
  pending : Option Int
deriving DecidableEq, Repr

/-- Boolean read of a JSON field. -/
def getBool : Option Json → Bool
  | some (.jbool b) => b
  | _ => false

/-- Numeric read of a JSON field. -/
def getNum : Option Json → Int
  | some (.num n) => n
  | _ => 0

/-- String read of a JSON field. -/
def getStr : Option Json → String
  | some (.str s) => s
  | _ => ""

/-- Optional numeric read of a JSON field. -/
def getNumOpt : Option Json → Option Int
  | some (.num n) => some n
  | _ => none

/-- Payload extraction used after a successful schema check. -/
def swDataOfJson (j : Json) : SWData :=
  let fs := objFields j
  let ds := objFields ((lookupField fs "data").getD .null)
  let ss := objFields ((lookupField ds "summary").getD .null)
  { success := getBool (lookupField fs "success")
    message := getStr (lookupField fs "message")
    total := getNum (lookupField ss "total")
    completed := getNum (lookupField ss "completed")
    inProgress := getNumOpt (lookupField ss "inProgress")
    pending := getNumOpt (lookupField ss "pending") }

/-- `SpecWorkflowDataSchema.parse`: all issues are collected; an issue-free
payload yields the extracted data. -/
def specWorkflowDataCheck (j : Json) : Except (List ZodIssue) SWData :=
  match specWorkflowDataIssues j with
  | [] => .ok (swDataOfJson j)
  | issues => .error issues

/-- Monitoring error `{type, message, details}` (`TaskMonitoringError`);
the timestamp field carries no verified content and is omitted. -/
structure TaskMonitoringError where
  type : String
  message : String
  details : String
deriving DecidableEq, Repr

/-- `TaskMonitoringService.createStructureError`: branches on whether any
issue path contains `"summary"`, then on paths containing `"total"` or
`"completed"`; the generic branch carries the raw zod serialization,
abstracted here as a constant. -/
def createStructureError (issues : List ZodIssue) : TaskMonitoringError :=
  let summaryMissing := issues.any
    (fun i => i.path.contains "summary" && i.code == "invalid_type")
  if summaryMissing then
    { type := "structure"
      message := "Spec-workflow data structure missing \x27summary\x27. Check spec-workflow system for changes."
      details := "The expected data.summary object is not present in the tool result" }
  else
    let totalMissing := issues.any
      (fun i => i.path.contains "total" && i.code == "invalid_type")
    let completedMissing := issues.any
      (fun i => i.path.contains "completed" && i.code == "invalid_type")
    if totalMissing || completedMissing then
      { type := "structure"
        message := "Spec-workflow summary structure changed. Expected \x27total\x27 and \x27completed\x27 properties. Check spec-workflow specification for updates."
        details := (String.append
          (if totalMissing then "total" else "")
          (String.append " "
            (if completedMissing then "completed" else ""))).trim }
    else
      { type := "structure"
        message := "Spec-workflow data structure validation failed. Check spec-workflow specification for structural changes."
        details := "zod issue serialization" }

/-- Failure raised out of `parseToolResult`: a structural error built from
zod issues, or a plain JSON-parse error. -/
inductive ParseFailure where
  | structural (e : TaskMonitoringError)
  | jsonError (msg : String)
deriving DecidableEq, Repr

/-- Validated spec-workflow tool result (`SpecWorkflowResult`). -/
structure SWResult where
  toolName : String
  timestamp : Nat
  data : SWData
deriving DecidableEq, Repr

/-- Tool-result content as handed to `parseToolResult`: a string (carried
as its `JSON.parse` outcome), an array whose first `text` item parses to
the given outcome, an array with no `text` item (whose empty fallback
string fails to parse), or a non-string non-array value. -/
inductive ToolContent where
  | str (raw : Option Json)
  | arrWithText (raw : Option Json)
  | arrNoText
  | other
deriving BEq, Repr

/-- Parse outcome of one JSON text inside `parseToolResult`. -/
def parseRawJson (raw : Option Json) (timestamp : Option Nat) (now : Nat) :
    Except ParseFailure (Option SWResult) :=
  match raw with
  | none => .error (.jsonError "Failed to parse tool result JSON")
  | some j =>
      match specWorkflowDataCheck j with
      | .ok d =>
          .ok (some { toolName := "mcp__spec-workflow__manage-tasks"
                      timestamp := timestamp.getD now
                      data := d })
      | .error issues => .error (.structural (createStructureError issues))

/-- `TaskMonitoringService.parseToolResult`: string and array content is
reduced to a JSON text and validated; other content yields `null`; a
failing schema check raises the structural error of
`createStructureError`. -/
def parseToolResult (content : ToolContent) (timestamp : Option Nat)
    (now : Nat) : Except ParseFailure (Option SWResult) :=
  match content with
  | .str raw => parseRawJson raw timestamp now
  | .arrWithText raw => parseRawJson raw timestamp now
  | .arrNoText => .error (.jsonError "Failed to parse tool result JSON")
  | .other => .ok none

/-- Conversation content item, as far as the extractor inspects it. -/
inductive ContentItem where
  | toolUse (id : Option String) (name : Option String)
  | toolResult (tool_use_id : Option String) (content : ToolContent)
  | otherItem
deriving BEq, Repr

/-- Conversation entry of a session transcript. -/
inductive Conversation where
  | xError
  | assistant (content : Option (List ContentItem)) (timestamp : Option Nat)
  | user (content : Option (List ContentItem)) (timestamp : Option Nat)
  | otherConv
deriving BEq, Repr

/-- Insertion into the tool-use map, overwriting an existing key like
`Map.set`. -/
def setAssoc : List (String × Option Nat) → String → Option Nat →
    List (String × Option Nat)
  | [], k, v => [(k, v)]
  | (k0, v0) :: rest, k, v =>
      if k0 == k then (k, v) :: rest else (k0, v0) :: setAssoc rest k v

/-- Key membership in the tool-use map (`Map.has`). -/
def hasKey (m : List (String × Option Nat)) (k : String) : Bool :=
  (List.lookup k m).isSome

/-- Leading-match test on character lists (structural recursion, so that
concrete evaluation reduces in the kernel). -/
def listLeadMatch : List Char → List Char → Bool
  | [], _ => true
  | _ :: _, [] => false
  | p :: ps, c :: cs => p == c && listLeadMatch ps cs

/-- The `name.startsWith(pat)` test on strings. -/
def strStartsWith (s pat : String) : Bool :=
  listLeadMatch pat.data s.data

/-- First pass over an assistant message: collect `tool_use` items whose
name starts with the reserved `mcp__spec-workflow__` marker and whose id
is truthy. -/
def collectToolUses (uses : List (String × Option Nat))
    (items : List ContentItem) (ts : Option Nat) :
    List (String × Option Nat) :=
  items.foldl
    (fun u item =>
      match item with
      | .toolUse (some i) (some n) =>
          if strStartsWith n "mcp__spec-workflow__" && !(i == "") then
            setAssoc u i ts
          else u
      | _ => u)
    uses

/-- Second pass over a user message: parse `tool_result` items keyed to a
collected tool use; parse failures are caught and skipped. -/
def collectResults (now : Nat) (uses : List (String × Option Nat))
    (results : List SWResult) (items : List ContentItem) : List SWResult :=
  items.foldl
    (fun acc item =>
      match item with
      | .toolResult (some tuid) content =>
          if !(tuid == "") && hasKey uses tuid then
            match parseToolResult content
                ((List.lookup tuid uses).getD none) now with
            | .ok (some r) => acc ++ [r]
            | .ok none => acc
            | .error _ => acc
          else acc
      | _ => acc)
    results

/-- One step of the extraction fold of `extractSpecWorkflowResults`. -/
def extractStep (now : Nat)
    (st : List (String × Option Nat) × List SWResult)
    (c : Conversation) : List (String × Option Nat) × List SWResult :=
  match c with
  | .xError => st
  | .assistant (some items) ts => (collectToolUses st.1 items ts, st.2)
  | .assistant none _ => st
  | .user (some items) _ => (st.1, collectResults now st.1 st.2 items)
  | .user none _ => st
  | .otherConv => st

/-- Stable ascending insertion by timestamp, matching the comparator
`a.timestamp - b.timestamp` under the (stable) array sort. -/
def insertByTs (r : SWResult) : List SWResult → List SWResult
  | [] => [r]
  | x :: xs =>
      if x.timestamp ≤ r.timestamp then x :: insertByTs r xs
      else r :: x :: xs

/-- Stable sort by timestamp. -/
def sortByTimestamp (rs : List SWResult) : List SWResult :=
  rs.foldl (fun acc r => insertByTs r acc) []

/-- `TaskMonitoringService.extractSpecWorkflowResults`. -/
def extractSpecWorkflowResults (now : Nat) (convs : List Conversation) :
    List SWResult :=
  sortByTimestamp (convs.foldl (extractStep now) ([], [])).2

/-- Session detail: id and conversation transcript. -/
structure SessionDetail where
  id : String
  conversations : List Conversation

/-- Task progress of `TaskMonitoringService.ts`. -/
structure TaskProgressM where
  taskId : String
  sessionId : Option String
  totalTasks : Int
  completedTasks : Int
  lastUpdated : Nat
  toolResults : List SWResult
deriving DecidableEq, Repr

/-- `TaskMonitoringService.monitorSession`. -/
def monitorSession (now : Nat) (session : SessionDetail)
    (taskId : String) : Option TaskProgressM :=
  let toolResults := extractSpecWorkflowResults now session.conversations
  if toolResults.length == 0 then none
  else
    match toolResults.getLast? with
    | none => none
    | some latest =>
        some { taskId := taskId
               sessionId := some session.id
               totalTasks := latest.data.total
               completedTasks := latest.data.completed
               lastUpdated := latest.timestamp
               toolResults := toolResults }

/-- `TaskMonitoringService.isAllTasksCompleted`. -/
def isAllTasksCompleted (progress : TaskProgressM) : Bool :=
  decide (progress.totalTasks > 0)
    && progress.totalTasks == progress.completedTasks

/-- Concrete good payload used to exercise the extractor. -/
def c7GoodPayload : Json :=
  .obj [("success", .jbool true), ("message", .str "ok"),
    ("data", .obj [("summary",
      .obj [("total", .num 5), ("completed", .num 2)])])]

/-- Concrete summary-free payload `{success:true,message:"x",data:{}}`. -/
def c7NoSummaryPayload : Json :=
  .obj [("success", .jbool true), ("message", .str "x"),
    ("data", .obj [])]

/-- Session whose transcript pairs two reserved-name tool invocations with
one summary-free payload and one well-formed payload. -/
def sessC7 : SessionDetail :=
  { id := "s7"
    conversations :=
      [.assistant (some [.toolUse (some "tu1")
          (some "mcp__spec-workflow__manage-tasks")]) (some 1),
       .user (some [.toolResult (some "tu1")
          (.str (some c7NoSummaryPayload))]) (some 1),
       .assistant (some [.toolUse (some "tu2")
          (some "mcp__spec-workflow__manage-tasks")]) (some 2),
       .user (some [.toolResult (some "tu2")
          (.str (some c7GoodPayload))]) (some 2)] }

/-- Parsed result of the well-formed payload of `sessC7`. -/
def rGoodC7 : SWResult :=
  { toolName := "mcp__spec-workflow__manage-tasks", timestamp := 2
    data := { success := true, message := "ok", total := 5, completed := 2
              inProgress := none, pending := none } }

/-- C7: `monitorSession` returns `null` exactly when no successfully
parsed summary payload exists among the matched tool results (failed
parses and summary-free payloads are caught and skipped, never raised),
and otherwise returns the counts of the most recent (timestamp-sorted
last) successfully parsed result. -/
theorem monitorSession_mostRecent (now : Nat) (sess : SessionDetail)
    (tid : String) :
    (monitorSession now sess tid = none
      ↔ extractSpecWorkflowResults now sess.conversations = [])
    ∧ (∀ pre r,
        extractSpecWorkflowResults now sess.conversations = pre ++ [r] →
        monitorSession now sess tid
          = some { taskId := tid, sessionId := some sess.id
                   totalTasks := r.data.total
                   completedTasks := r.data.completed
                   lastUpdated := r.timestamp
                   toolResults := pre ++ [r] }) := by
  have hmost : ∀ pre r,
      extractSpecWorkflowResults now sess.conversations = pre ++ [r] →
      monitorSession now sess tid
        = some { taskId := tid, sessionId := some sess.id
                 totalTasks := r.data.total
                 completedTasks := r.data.completed
                 lastUpdated := r.timestamp
                 toolResults := pre ++ [r] } := by
    intro pre r h
    have hlen : ((pre ++ [r]).length == 0) = false := by
      simp
    have hlast : (pre ++ [r]).getLast? = some r := List.getLast?_concat pre
    simp only [monitorSession, h, hlen, Bool.false_eq_true, if_false, hlast]
  refine ⟨⟨?_, ?_⟩, hmost⟩
  · intro hm
    by_contra hne
    obtain ⟨l2, b, hb⟩ :=
      (List.eq_nil_or_concat
        (extractSpecWorkflowResults now sess.conversations)).resolve_left hne
    have := hmost l2 b (by simpa [List.concat_eq_append] using hb)
    rw [this] at hm
    cases hm
  · intro hx
    simp [monitorSession, hx]

set_option maxRecDepth 10000 in
/-- C7 witness: on `sessC7` the summary-free payload is skipped without an
error and the counts of the single well-formed payload are returned. -/
theorem monitorSession_mostRecent_witness :
    extractSpecWorkflowResults 0 sessC7.conversations = [] ++ [rGoodC7]
    ∧ monitorSession 0 sessC7 "t7"
        = some { taskId := "t7", sessionId := some "s7"
                 totalTasks := rGoodC7.data.total
                 completedTasks := rGoodC7.data.completed
                 lastUpdated := rGoodC7.timestamp
                 toolResults := [] ++ [rGoodC7] } := by
  have hx : extractSpecWorkflowResults 0 sessC7.conversations
      = [] ++ [rGoodC7] := by
    rfl
  exact ⟨hx, (monitorSession_mostRecent 0 sessC7 "t7").2 [] rGoodC7 hx⟩

/-- The payload `{data:{summary:{total:3}}}` of the C8 scenario. -/
def c8Payload : Json :=
  .obj [("data", .obj [("summary", .obj [("total", .num 3)])])]

/-- C8: evaluating the monitoring service at the failing input
`{data:{summary:{total:3}}}` (missing `completed`).  The zod issues
include one at path `data.summary.completed`; because that path contains
`"summary"`, the first branch of `createStructureError` fires and the
raised structural error is the missing-summary message — not the message
that names the missing `total`/`completed` properties, which the second
(dead, as witnessed here) branch would have produced. -/
theorem createStructureError_missing_completed_misreport :
    specWorkflowDataIssues c8Payload
      = [⟨["success"], "invalid_type"⟩, ⟨["message"], "invalid_type"⟩,
         ⟨["data", "summary", "completed"], "invalid_type"⟩]
    ∧ parseToolResult (.str (some c8Payload)) (some 1) 0
        = .error (.structural
            (createStructureError (specWorkflowDataIssues c8Payload)))
    ∧ (createStructureError (specWorkflowDataIssues c8Payload)).message
        = "Spec-workflow data structure missing \x27summary\x27. Check spec-workflow system for changes."
    ∧ (createStructureError (specWorkflowDataIssues c8Payload)).message
        ≠ "Spec-workflow summary structure changed. Expected \x27total\x27 and \x27completed\x27 properties. Check spec-workflow specification for updates."
    ∧ (createStructureError (specWorkflowDataIssues c8Payload)).details
        = "The expected data.summary object is not present in the tool result" := by
  refine ⟨rfl, rfl, rfl, ?_, rfl⟩
  decide

/-- The payload whose summary reports `completed:5` over `total:3`. -/
def c9Payload : Json :=
  .obj [("success", .jbool true), ("message", .str "x"),
    ("data", .obj [("summary",
      .obj [("total", .num 3), ("completed", .num 5)])])]

/-- Session whose single matched tool result carries the violating
summary of `c9Payload`. -/
def sessC9 : SessionDetail :=
  { id := "s9"
    conversations :=
      [.assistant (some [.toolUse (some "tu9")
          (some "mcp__spec-workflow__manage-tasks")]) (some 1),
       .user (some [.toolResult (some "tu9")
          (.str (some c9Payload))]) (some 1)] }

/-- C9 counterexample: `monitorSession` propagates a summary reporting
`completed` greater than `total` into a `TaskProgress` — it is neither
rejected with a validation error nor clamped. -/
theorem monitorSession_violation_cex :
    (monitorSession 0 sessC9 "t9").map
        (fun p => (p.totalTasks, p.completedTasks))
      = some (3, 5)
    ∧ ¬((5 : Int) ≤ (3 : Int)) := by
  refine ⟨rfl, ?_⟩
  decide

/-- Runtime spec-workflow tool result as handled by
`TaskProgressTracker` (`result.data` is the raw parsed payload). -/
structure SWResultR where
  toolName : String
  timestamp : Nat
  data : Json
deriving BEq, Repr

/-- Progress-tracking error `{type, message, details}`
(`TaskProgressError`); timestamp and original error carry no verified
content and are omitted. -/
structure TPError where
  type : String
  message : String
  details : String
deriving DecidableEq, Repr

/-- Required non-negative integer check of the part_004 summary schema
(`z.number().int().min(0)`). -/
def p4NumOk (fields : List (String × Json)) (key : String) : Bool :=
  match lookupField fields key with
  | some (.num n) => decide (0 ≤ n)
  | _ => false

/-- Summary validity under `SpecWorkflowSummarySchema` of
`taskSchemas.ts` (part_004): `total`, `completed`, `inProgress`,
`pending` all required. -/
def p4SummaryValid (j : Json) : Bool :=
  match j with
  | .obj ss =>
      p4NumOk ss "total" && p4NumOk ss "completed"
        && p4NumOk ss "inProgress" && p4NumOk ss "pending"
  | _ => false

/-- Validity under `SpecWorkflowDataSchema` of `taskSchemas.ts`
(`{summary: SpecWorkflowSummarySchema}`). -/
def p4DataValid (j : Json) : Bool :=
  match j with
  | .obj fs =>
      match lookupField fs "summary" with
      | some s => p4SummaryValid s
      | none => false
  | _ => false

/-- `validateSpecWorkflowData` of `taskSchemas.ts`: a failed safeParse is
given a custom message when the object has no `summary` key at all, or
when the summary object lacks one of the four expected properties; any
other failure keeps the raw zod serialization (abstracted as a
constant). -/
def validateSpecWorkflowData (j : Json) : Except String Unit :=
  if p4DataValid j then .ok ()
  else
    let hasNoSummary :=
      match j with
      | .obj fs => (lookupField fs "summary").isNone
      | _ => true
    if hasNoSummary then
      .error "Spec-workflow data structure missing \x27summary\x27. Check spec-workflow system for changes."
    else
      match (match j with | .obj fs => lookupField fs "summary" | _ => none) with
      | some (.obj ss) =>
          let missingProps :=
            ["total", "completed", "inProgress", "pending"].filter
              (fun k => (lookupField ss k).isNone)
          if missingProps.length > 0 then
            .error "Spec-workflow summary structure changed. Expected \x27total\x27, \x27completed\x27, \x27inProgress\x27, \x27pending\x27 properties. Check spec-workflow specification for updates."
          else .error "zod issue serialization"
      | _ => .error "zod issue serialization"

/-- The `!result?.data?.data` prefilter of
`validateSpecWorkflowResults`. -/
def prefilterPass (r : SWResultR) : Bool :=
  match lookupField (objFields r.data) "data" with
  | some v => jsonTruthy v
  | none => false

/-- Inner payload `result.data.data`. -/
def innerData (r : SWResultR) : Json :=
  (lookupField (objFields r.data) "data").getD .null

/-- Summary counts `result.data.data.summary.{total,completed}` as the
tracker reads them after validation. -/
def summaryTotal (r : SWResultR) : Int :=
  getNum (lookupField
    (objFields ((lookupField (objFields (innerData r)) "summary").getD .null))
    "total")

/-- Summary `completed` count read by the tracker. -/
def summaryCompleted (r : SWResultR) : Int :=
  getNum (lookupField
    (objFields ((lookupField (objFields (innerData r)) "summary").getD .null))
    "completed")

/-- Per-result loop of
`TaskProgressTracker.validateSpecWorkflowResults`, returning the first
error. -/
def vswrLoop : List SWResultR → Option TPError
  | [] => none
  | r :: rest =>
      if !(prefilterPass r) then
        some { type := "structure"
               message := "Spec-workflow result missing required data structure"
               details := "Expected result.data.data structure not found" }
      else
        match validateSpecWorkflowData (innerData r) with
        | .error msg =>
            some { type := "structure", message := msg
                   details := "Validation failed" }
        | .ok () =>
            if summaryCompleted r > summaryTotal r then
              some { type := "relationship"
                     message := "Spec-workflow data contains invalid task counts"
                     details := "Completed tasks cannot exceed total tasks" }
            else vswrLoop rest

/-- `TaskProgressTracker.validateSpecWorkflowResults`. -/
def validateSpecWorkflowResults (results : List SWResultR) :
    Option TPError :=
  if results.length == 0 then
    some { type := "validation"
           message := "Spec-workflow results must be a non-empty array"
           details := "Expected array of SpecWorkflowResult objects" }
  else vswrLoop results

/-- Hexadecimal digit test of the uuid shape check. -/
def isHexDigit (c : Char) : Bool :=
  c.isDigit || ('a' ≤ c && c ≤ 'f') || ('A' ≤ c && c ≤ 'F')

/-- Shape check behind `z.string().uuid()`: five dash-separated hex
groups of widths 8-4-4-4-12 (the zod regex, version digits relaxed). -/
def isUuid (s : String) : Bool :=
  match s.splitOn "-" with
  | [a, b, c, d, e] =>
      a.length == 8 && b.length == 4 && c.length == 4 && d.length == 4
        && e.length == 12
        && (a.data ++ b.data ++ c.data ++ d.data ++ e.data).all isHexDigit
  | _ => false

/-- Constructed progress record of `updateProgress`
(`TaskProgressSchema` shape). -/
structure TaskProgressP where
  taskId : String
  sessionId : Option String
  totalTasks : Int
  completedTasks : Int
  lastUpdated : Nat
  toolResults : List SWResultR
deriving BEq, Repr

/-- Validity of one tool result under `SpecWorkflowResultSchema.data` of
`taskSchemas.ts` (`{success, message, data: SpecWorkflowDataSchema}`). -/
def p4ResultDataValid (j : Json) : Bool :=
  match j with
  | .obj fs =>
      (match lookupField fs "success" with
       | some (.jbool _) => true
       | _ => false)
      && (match lookupField fs "message" with
          | some (.str _) => true
          | _ => false)
      && (match lookupField fs "data" with
          | some d => p4DataValid d
          | _ => false)
  | _ => false

/-- `validateTaskProgress` of `taskSchemas.ts`: `TaskProgressSchema`
field checks plus the `completedTasks ≤ totalTasks` refinement. -/
def validateTaskProgress (p : TaskProgressP) : Bool :=
  isUuid p.taskId
    && decide (0 ≤ p.totalTasks) && decide (0 ≤ p.completedTasks)
    && p.toolResults.all
      (fun r => r.toolName == "mcp__spec-workflow__manage-tasks"
        && p4ResultDataValid r.data)
    && decide (p.completedTasks ≤ p.totalTasks)

/-- `TaskProgressTracker.updateProgress`. -/
def updateProgress (taskId : String) (sessionId : Option String)
    (results : List SWResultR) : Except TPError TaskProgressP :=
  match validateSpecWorkflowResults results with
  | some e => .error e
  | none =>
      match results.getLast? with
      | none =>
          .error { type := "validation"
                   message := "No spec-workflow results provided for progress update"
                   details := "At least one spec-workflow tool result is required to track progress" }
      | some latest =>
          let progressData : TaskProgressP :=
            { taskId := taskId, sessionId := sessionId
              totalTasks := summaryTotal latest
              completedTasks := summaryCompleted latest
              lastUpdated := latest.timestamp
              toolResults := results }
          if validateTaskProgress progressData then .ok progressData
          else
            .error { type := "validation"
                     message := "Task progress data validation failed"
                     details := "Validation failed" }

/-- Soundness of the per-result loop: a pass with no error implies every
result's summary counts satisfy the relationship bound. -/
lemma vswrLoop_none_sound :
    ∀ (results : List SWResultR), vswrLoop results = none →
      ∀ r ∈ results, summaryCompleted r ≤ summaryTotal r := by
  intro results
  induction results with
  | nil =>
      intro _ r hr
      exact absurd hr (List.not_mem_nil r)
  | cons a rest ih =>
      intro h r hr
      rw [vswrLoop] at h
      split at h
      · exact Option.noConfusion h
      · split at h
        · exact Option.noConfusion h
        · split at h
          · exact Option.noConfusion h
          · rename_i hgt
            rcases List.mem_cons.mp hr with hra | hrr
            · subst hra
              exact le_of_not_lt hgt
            · exact ih h r hrr

/-- C9 amended: every `TaskProgress` accepted out of
`TaskProgressTracker.updateProgress` satisfies
`completedTasks ≤ totalTasks`, and an input whose summary reports
`completed` greater than `total` is answered with an error, never
clamped. -/
theorem updateProgress_bound (tid : String) (sid : Option String)
    (results : List SWResultR) :
    (∀ p, updateProgress tid sid results = .ok p →
      p.completedTasks ≤ p.totalTasks)
    ∧ (∀ r ∈ results, summaryCompleted r > summaryTotal r →
      ∃ e, updateProgress tid sid results = .error e) := by
  constructor
  · intro p h
    rw [updateProgress] at h
    split at h
    · exact Except.noConfusion h
    · split at h
      · exact Except.noConfusion h
      · simp only [] at h
        split at h
        · rename_i latest hlast hvt
          have hp := Except.ok.inj h
          have hle : decide (summaryCompleted latest ≤ summaryTotal latest)
              = true := by
            simp only [validateTaskProgress, Bool.and_eq_true] at hvt
            exact hvt.2
          rw [← hp]
          exact of_decide_eq_true hle
        · exact Except.noConfusion h
  · intro r hr hgt
    cases hv : validateSpecWorkflowResults results with
    | some e =>
        exact ⟨e, by simp [updateProgress, hv]⟩
    | none =>
        exfalso
        rw [validateSpecWorkflowResults] at hv
        split at hv
        · exact Option.noConfusion hv
        · exact absurd (vswrLoop_none_sound results hv r hr)
            (not_le.mpr hgt)

/-- C9 amended witness: the violating summary `{total:3, completed:5}` is
rejected by `updateProgress` with an error. -/
theorem updateProgress_bound_witness :
    ∃ e, updateProgress "t9" none
        [{ toolName := "mcp__spec-workflow__manage-tasks", timestamp := 2
           data := c9Payload }] = .error e := by
  refine (updateProgress_bound "t9" none _).2
    { toolName := "mcp__spec-workflow__manage-tasks", timestamp := 2
      data := c9Payload } ?_ ?_
  · exact List.mem_singleton.mpr rfl
  · decide

/-- Session configuration `TaskSessionConfig` of `claude-code/types.ts`. -/
structure TaskSessionConfig where
  cwd : String
  projectId : String
  sessionId : Option String
  completionCondition : Option CompletionCondition
  autoContinue : Option Bool
deriving DecidableEq, Repr

/-- The single continuation scheduled by
`SessionContinuationHandler.handleAutoContinue`: complete the current
task, then start exactly one new task from the given configuration and
prompt. -/
structure ContinuationAction where
  completedTaskId : String
  config : TaskSessionConfig
  prompt : String
deriving DecidableEq, Repr

/-- `SessionContinuationHandler.handleAutoContinue`: throws unless the
task is configured for auto-continue; otherwise schedules completion of
the current task and one `startTask` call whose configuration copies
`projectId`/`cwd`/`completionCondition`/`autoContinue` and passes no
`sessionId`, with the original prompt as the message. -/
def handleAutoContinue (currentTask : CCTask) :
    Except String ContinuationAction :=
  if !(truthyBool currentTask.autoContinue)
      || !(truthyStr currentTask.originalPrompt) then
    .error "Task is not configured for auto-continue"
  else
    .ok { completedTaskId := currentTask.id
          config := { projectId := currentTask.projectId
                      cwd := currentTask.cwd
                      sessionId := none
                      completionCondition := currentTask.completionCondition
                      autoContinue := currentTask.autoContinue }
          prompt := currentTask.originalPrompt.getD "" }

/-- `ClaudeCodeTaskController.createPendingTask`: the new pending task
built from a session configuration and message (`originalPrompt` is the
message; `baseSessionId` is the configured session id, `undefined`
meaning a brand-new session). -/
def createPendingTask (newId : String) (now : Nat)
    (sessionConfig : TaskSessionConfig) (message : String) : CCTask :=
  { status := .pending
    id := newId
    projectId := sessionConfig.projectId
    baseSessionId := sessionConfig.sessionId
    cwd := sessionConfig.cwd
    completionCondition := sessionConfig.completionCondition
    originalPrompt := some message
    autoContinue := sessionConfig.autoContinue
    lastActivity := now
    sessionId := none
    userMessageId := none }

/-- Outcome of `SpecWorkflowHandler.handleCompletion`: complete the task,
run the auto-continuation, or require manual continuation and pause. -/
inductive SpecOutcome where
  | completeNow (taskId : String)
  | autoCont (r : ContinuationAction)
  | manualPause (taskId : String)
deriving DecidableEq, Repr

/-- Decision skeleton of `SpecWorkflowHandler.handleCompletion`: no
session id completes; a progress with all tasks done completes; an
incomplete progress (or none) auto-continues when the task can, else
requires manual continuation and pauses; a continuation throw is caught
and completes fail-safe. -/
def handleCompletionDecision (currentTask : CCTask)
    (taskProgress : Option TaskProgressM) : SpecOutcome :=
  match currentTask.sessionId with
  | none => .completeNow currentTask.id
  | some _ =>
      match taskProgress with
      | some pr =>
          if isAllTasksCompleted pr then .completeNow currentTask.id
          else if canTaskAutoContinue currentTask then
            match handleAutoContinue currentTask with
            | .ok r => .autoCont r
            | .error _ => .completeNow currentTask.id
          else .manualPause currentTask.id
      | none =>
          if canTaskAutoContinue currentTask then
            match handleAutoContinue currentTask with
            | .ok r => .autoCont r
            | .error _ => .completeNow currentTask.id
          else .manualPause currentTask.id

/-- Lookup after replacement: replacing the task that carries `u.id`
makes `u` the first match. -/
lemma findTaskById_replaceTask (ts : Registry) (u : CCTask) :
    (findTaskById ts u.id).isSome = true →
    findTaskById (replaceTask ts u) u.id = some u := by
  induction ts with
  | nil =>
      intro h
      simp [findTaskById] at h
  | cons a as ih =>
      intro h
      rw [replaceTask]
      cases hid : a.id == u.id with
      | true =>
          rw [if_pos rfl]
          unfold findTaskById
          rw [List.find?_cons_of_pos]
          simp
      | false =>
          rw [if_neg (by simp)]
          unfold findTaskById at h ⊢
          rw [List.find?_cons_of_neg] at h
          · rw [List.find?_cons_of_neg]
            · exact ih h
            · simp [hid]
          · simp [hid]

/-- C3: whenever the spec-workflow completion path runs for a task whose
progress is incomplete (`completedTasks < totalTasks`), with the
auto-continue flag set and a present original prompt, the outcome is the
auto-continuation: it completes exactly the old task and creates exactly
one new pending task whose `cwd`, `projectId`, `completionCondition`,
`autoContinue` and `originalPrompt` equal the old task's, with no resume
identifier (`sessionId` absent from the new configuration,
`baseSessionId` absent from the new task); completing the old task in
the registry marks it `completed`. -/
theorem autoContinue_restart_equivalent (t : CCTask) (pr : TaskProgressM)
    (sid : String) (newId : String) (now : Nat) (ts : Registry)
    (hsess : t.sessionId = some sid)
    (hcount : pr.completedTasks < pr.totalTasks)
    (hac : t.autoContinue = some true)
    (hp : ∃ s, t.originalPrompt = some s ∧ s ≠ "")
    (halive : t.status = .running ∨ t.status = .paused)
    (hfind : findTaskById ts t.id = some t) :
    ∃ r, handleCompletionDecision t (some pr) = .autoCont r
      ∧ r.completedTaskId = t.id
      ∧ r.config.projectId = t.projectId
      ∧ r.config.cwd = t.cwd
      ∧ r.config.completionCondition = t.completionCondition
      ∧ r.config.autoContinue = t.autoContinue
      ∧ r.config.sessionId = none
      ∧ some r.prompt = t.originalPrompt
      ∧ (createPendingTask newId now r.config r.prompt).projectId
          = t.projectId
      ∧ (createPendingTask newId now r.config r.prompt).cwd = t.cwd
      ∧ (createPendingTask newId now r.config r.prompt).completionCondition
          = t.completionCondition
      ∧ (createPendingTask newId now r.config r.prompt).autoContinue
          = t.autoContinue
      ∧ (createPendingTask newId now r.config r.prompt).originalPrompt
          = t.originalPrompt
      ∧ (createPendingTask newId now r.config r.prompt).baseSessionId
          = none
      ∧ ∃ ts2, completeTask ts t.id = .ok ts2
          ∧ (findTaskById ts2 t.id).map (fun x => x.status)
              = some TaskStatus.completed := by
  obtain ⟨s, hs, hsne⟩ := hp
  have htb : truthyBool t.autoContinue = true := by
    rw [hac]
    rfl
  have hts : truthyStr t.originalPrompt = true := by
    rw [hs]
    simp [truthyStr]
    intro hcontra
    exact hsne hcontra
  have hcan : canTaskAutoContinue t = true := by
    rw [canTaskAutoContinue, htb, hts]
    rfl
  have hcond : (!truthyBool t.autoContinue || !truthyStr t.originalPrompt)
      = false := by
    rw [htb, hts]
    rfl
  have hhac : handleAutoContinue t
      = .ok { completedTaskId := t.id
              config := { projectId := t.projectId, cwd := t.cwd
                          sessionId := none
                          completionCondition := t.completionCondition
                          autoContinue := t.autoContinue }
              prompt := t.originalPrompt.getD "" } := by
    rw [handleAutoContinue, hcond]
    simp
  have hnotall : isAllTasksCompleted pr = false := by
    rw [isAllTasksCompleted]
    have : (pr.totalTasks == pr.completedTasks) = false := by
      simp only [beq_eq_false_iff_ne, ne_eq]
      intro he
      rw [he] at hcount
      exact lt_irrefl _ hcount
    rw [this]
    simp
  refine ⟨{ completedTaskId := t.id
            config := { projectId := t.projectId, cwd := t.cwd
                        sessionId := none
                        completionCondition := t.completionCondition
                        autoContinue := t.autoContinue }
            prompt := t.originalPrompt.getD "" },
    ?_, rfl, rfl, rfl, rfl, rfl, rfl, ?_, rfl, rfl, rfl, rfl, ?_, rfl, ?_⟩
  · rw [handleCompletionDecision, hsess]
    simp only [hnotall, Bool.false_eq_true, if_false, hcan, if_true, hhac]
  · rw [hs]
    rfl
  · rw [createPendingTask]
    rw [hs]
    rfl
  · have hbstatus : (t.status == TaskStatus.running
        || t.status == TaskStatus.paused) = true := by
      rcases halive with h | h <;> rw [h] <;> rfl
    have hid2 : ({ t with status := TaskStatus.completed }).id = t.id := rfl
    refine ⟨replaceTask ts { t with status := .completed }, ?_, ?_⟩
    · simp only [completeTask, hfind, hbstatus, if_true, updateTask]
    · have := findTaskById_replaceTask ts { t with status := .completed }
        (by rw [hid2, hfind]; rfl)
      rw [hid2] at this
      rw [this]
      rfl

/-- The alive task used to instantiate the C3 theorem. -/
def tAliveC3 : CCTask :=
  { id := "t3", projectId := "p3", baseSessionId := none, cwd := "/w3"
    completionCondition := some .specWorkflow
    originalPrompt := some "build it", autoContinue := some true
    lastActivity := 7, status := .running, sessionId := some "s3"
    userMessageId := some "u3" }

/-- C3 witness: concrete incomplete progress on a running auto-continue
task yields the continuation with matching configuration. -/
theorem autoContinue_restart_equivalent_witness :
    ∃ r, handleCompletionDecision tAliveC3
        (some { taskId := "t3", sessionId := some "s3", totalTasks := 5
                completedTasks := 2, lastUpdated := 9, toolResults := [] })
        = .autoCont r
      ∧ r.completedTaskId = tAliveC3.id
      ∧ r.config.projectId = tAliveC3.projectId
      ∧ r.config.cwd = tAliveC3.cwd
      ∧ r.config.completionCondition = tAliveC3.completionCondition
      ∧ r.config.autoContinue = tAliveC3.autoContinue
      ∧ r.config.sessionId = none
      ∧ some r.prompt = tAliveC3.originalPrompt
      ∧ (createPendingTask "t3new" 11 r.config r.prompt).projectId
          = tAliveC3.projectId
      ∧ (createPendingTask "t3new" 11 r.config r.prompt).cwd = tAliveC3.cwd
      ∧ (createPendingTask "t3new" 11 r.config r.prompt).completionCondition
          = tAliveC3.completionCondition
      ∧ (createPendingTask "t3new" 11 r.config r.prompt).autoContinue
          = tAliveC3.autoContinue
      ∧ (createPendingTask "t3new" 11 r.config r.prompt).originalPrompt
          = tAliveC3.originalPrompt
      ∧ (createPendingTask "t3new" 11 r.config r.prompt).baseSessionId
          = none
      ∧ ∃ ts2, completeTask [tAliveC3] tAliveC3.id = .ok ts2
          ∧ (findTaskById ts2 tAliveC3.id).map (fun x => x.status)
              = some TaskStatus.completed :=
  autoContinue_restart_equivalent tAliveC3
    { taskId := "t3", sessionId := some "s3", totalTasks := 5
      completedTasks := 2, lastUpdated := 9, toolResults := [] }
    "s3" "t3new" 11 [tAliveC3] rfl (by decide) rfl
    ⟨"build it", rfl, by decide⟩ (Or.inl rfl) rfl

/-- Effect emitted by one sweep of
`BackgroundTaskService.checkTaskTimeouts`: start a new session (with the
follow-up abort of the old one on success), or abort only. -/
inductive SweepAction where
  | startNew (config : TaskSessionConfig) (prompt : String)
  | abortSess (sessionId : String)
deriving DecidableEq, Repr

/-- `ClaudeCodeTaskController.abortTask`: find the alive task by session
id (raising when absent), fire its abort controller, and mark it failed
via `failTask`. -/
def abortTask (ts : Registry) (sessionId : String) :
    Except String Registry :=
  match findTaskBySessionId ts sessionId with
  | none => .error "Alive Task not found"
  | some task => failTask ts task.id

/-- `BackgroundTaskService.checkTaskTimeouts` (success path of session
creation): over the alive-task snapshot, every `running` task whose
inactivity exceeds the 120 s timeout emits either a new-session start
(configuration without a session id, `autoContinue` forced true, message
= original prompt) followed by an abort of the old session, or an abort
alone when no original prompt is available. -/
def checkTaskTimeouts (now : Nat) (ts : Registry) : List SweepAction :=
  (aliveTasks ts).foldl
    (fun acc task =>
      if decide (now - task.lastActivity > 120000)
          && task.status == .running then
        if truthyStr task.originalPrompt then
          acc ++ [SweepAction.startNew
              { sessionId := none, cwd := task.cwd
                projectId := task.projectId
                completionCondition := task.completionCondition
                autoContinue := some true }
              (task.originalPrompt.getD ""),
            SweepAction.abortSess (task.sessionId.getD "")]
        else acc ++ [SweepAction.abortSess (task.sessionId.getD "")]
      else acc)
    []

/-- Stale running task with an original prompt, for the C4 scenario. -/
def tStaleC4 : CCTask :=
  { id := "t4", projectId := "p4", baseSessionId := none, cwd := "/w4"
    completionCondition := some .specWorkflow
    originalPrompt := some "p4prompt", autoContinue := some true
    lastActivity := 0, status := .running, sessionId := some "s4"
    userMessageId := some "u4" }

/-- Stale paused (alive) task, untouched by the sweep. -/
def tStalePausedC4 : CCTask :=
  { tStaleC4 with
    id := "t4b"
    sessionId := some "s4b"
    status := .paused }

/-- C4: evaluated at the failing input (a running task with an original
prompt, inactive for more than the threshold), the sweep emits the
new-session start with copied configuration and then aborts the old
session, and `abortTask` marks the old task `failed` — not `completed`
as the claim (and the sweeper's own comment and log message) state; a
stale but paused alive task is not swept at all. -/
theorem sweeper_marks_failed_not_completed :
    checkTaskTimeouts 130000 [tStaleC4]
      = [SweepAction.startNew
          { sessionId := none, cwd := "/w4", projectId := "p4"
            completionCondition := some .specWorkflow
            autoContinue := some true } "p4prompt",
         SweepAction.abortSess "s4"]
    ∧ abortTask [tStaleC4] "s4"
        = .ok [{ tStaleC4 with status := TaskStatus.failed }]
    ∧ TaskStatus.failed ≠ TaskStatus.completed
    ∧ checkTaskTimeouts 130000 [tStalePausedC4] = [] := by
  refine ⟨rfl, rfl, ?_, rfl⟩
  decide

/-- Stream message as inspected by the task-controller loop. -/
structure LoopMsg where
  type : String
  uuid : Option String
  session_id : Option String
deriving DecidableEq, Repr

/-- Condition of `updateTaskFromMessage`: a `user` or `assistant` message
with a truthy uuid promotes the pending task to running. -/
def registersMsg (m : LoopMsg) : Bool :=
  (m.type == "user" || m.type == "assistant") && truthyStr m.uuid

/-- `ClaudeCodeTaskController.updateTaskFromMessage`: the running task
derived from the current message, or nothing. -/
def updateTaskFromMessage (p : CCTask) (m : LoopMsg) : Option CCTask :=
  if registersMsg m then
    some { status := .running
           id := p.id
           projectId := p.projectId
           baseSessionId := p.baseSessionId
           cwd := p.cwd
           completionCondition := p.completionCondition
           originalPrompt := p.originalPrompt
           autoContinue := p.autoContinue
           lastActivity := p.lastActivity
           sessionId := m.session_id
           userMessageId := m.uuid }
  else none

/-- Registry effect of `SpecWorkflowHandler.handleCompletion`, left
abstract: it reads the session transcript from outside the engine. -/
abbrev SpecOracle := Registry → CCTask → Except String Registry

/-- `ClaudeCodeTaskController.handleTaskCompletion`: only a `result`
message with a current task acts — the spec-workflow path for
`completionCondition === "spec-workflow"`, the default path pausing the
task. -/
def handleTaskCompletionStep (spec : SpecOracle) (reg : Registry)
    (cur : Option CCTask) (m : LoopMsg) : Except String Registry :=
  match cur with
  | some t =>
      if m.type == "result" then
        if t.completionCondition == some .specWorkflow then spec reg t
        else pauseTask reg t.id
      else .ok reg
  | none => .ok reg

/-- Registry after the conditional one-time registration
(`if (currentTask && !resolved) addTask`). -/
def regAfterAdd (reg : Registry) (resolved : Bool) (cur : Option CCTask) :
    Registry :=
  match cur with
  | some ct => if !resolved then addTask reg ct else reg
  | none => reg

/-- Message loop of `ClaudeCodeTaskController.executeTask`: per message,
derive the current task, register it once (on the first derivation),
run `handleTaskCompletion`, and thread the registry; a thrown error
carries the registry into the catch handler. -/
def runExec (p : CCTask) (spec : SpecOracle) :
    Registry → Bool → Option CCTask → List LoopMsg →
    Except Registry (Registry × Option CCTask)
  | reg, _, cur, [] => .ok (reg, cur)
  | reg, resolved, _, m :: rest =>
      match handleTaskCompletionStep spec
          (regAfterAdd reg resolved (updateTaskFromMessage p m))
          (updateTaskFromMessage p m) m with
      | .ok reg2 =>
          runExec p spec reg2
            (resolved || (updateTaskFromMessage p m).isSome)
            (updateTaskFromMessage p m) rest
      | .error _ =>
          .error (regAfterAdd reg resolved (updateTaskFromMessage p m))

/-- Once resolved, the registration step is the identity. -/
lemma regAfterAdd_true (reg : Registry) (cur : Option CCTask) :
    regAfterAdd reg true cur = reg := by
  cases cur <;> rfl

/-- `handleExecutionError`: mark the task failed when it was
registered. -/
def catchFail (reg : Registry) (taskId : String) : Registry :=
  match findTaskById reg taskId with
  | some _ =>
      match failTask reg taskId with
      | .ok r => r
      | .error _ => reg
  | none => reg

/-- `ClaudeCodeTaskController.executeTask` end to end: run the loop over
the stream, then `completeTaskExecution` completes the current task when
one is present; a throw anywhere lands in `handleExecutionError`. -/
def executeTaskModel (p : CCTask) (spec : SpecOracle)
    (msgs : List LoopMsg) : Registry :=
  match runExec p spec [] false none msgs with
  | .ok (reg, cur) =>
      match cur with
      | some t =>
          match completeTask reg t.id with
          | .ok r => r
          | .error _ => catchFail reg p.id
      | none => reg
  | .error reg => catchFail reg p.id

/-- Under a registered task and no further `result` messages, the loop
changes neither the registry nor the resolution flag; the final current
task is derived from the last message. -/
lemma runExec_resolved_noResult (p : CCTask) (spec : SpecOracle) :
    ∀ (msgs : List LoopMsg) (reg : Registry) (cur : Option CCTask),
      (∀ m ∈ msgs, m.type ≠ "result") →
      runExec p spec reg true cur msgs
        = .ok (reg,
            match msgs.getLast? with
            | none => cur
            | some lm => updateTaskFromMessage p lm) := by
  intro msgs
  induction msgs with
  | nil =>
      intro reg cur _
      rfl
  | cons m rest ih =>
      intro reg cur hno
      have hmt : (m.type == "result") = false := by
        have := hno m (List.mem_cons_self m rest)
        simpa using this
      have hnr : ∀ x ∈ rest, x.type ≠ "result" :=
        fun x hx => hno x (List.mem_cons_of_mem m hx)
      have hstep : handleTaskCompletionStep spec reg
          (updateTaskFromMessage p m) m = .ok reg := by
        cases hcu : updateTaskFromMessage p m with
        | none => rfl
        | some t =>
            simp only [handleTaskCompletionStep, hmt, Bool.false_eq_true,
              if_false]
      rw [runExec, regAfterAdd_true, hstep]
      simp only [Bool.true_or]
      rw [ih reg (updateTaskFromMessage p m) hnr]
      cases rest with
      | nil => rfl
      | cons b r2 =>
          rw [List.getLast?_cons_cons]
          rcases List.eq_nil_or_concat (b :: r2) with h | ⟨l2, a2, h⟩
          · exact absurd h (List.cons_ne_nil b r2)
          · rw [h, List.concat_eq_append, List.getLast?_concat]

/-- Promotion facts recoverable from a successful
`updateTaskFromMessage`. -/
lemma updateTaskFromMessage_some (p : CCTask) (m : LoopMsg)
    (ct : CCTask) (h : updateTaskFromMessage p m = some ct) :
    ct.id = p.id ∧ ct.status = .running := by
  rw [updateTaskFromMessage] at h
  by_cases hr : registersMsg m = true
  · rw [if_pos hr] at h
    have := Option.some.inj h
    rw [← this]
    exact ⟨rfl, rfl⟩
  · rw [if_neg hr] at h
    exact Option.noConfusion h

/-- From a pending task, a stream with no `result` message and at least
one registering message leaves exactly the one registered running task
in the registry, the final current task being derived from the last
message. -/
lemma runExec_start_noResult (p : CCTask) (spec : SpecOracle) :
    ∀ (msgs : List LoopMsg),
      (∀ m ∈ msgs, m.type ≠ "result") →
      (∃ m ∈ msgs, registersMsg m = true) →
      ∃ rt lm, msgs.getLast? = some lm
        ∧ runExec p spec [] false none msgs
            = .ok ([rt], updateTaskFromMessage p lm)
        ∧ rt.id = p.id ∧ rt.status = .running := by
  intro msgs
  induction msgs with
  | nil =>
      intro _ hreg
      obtain ⟨m, hm, _⟩ := hreg
      exact absurd hm (List.not_mem_nil m)
  | cons m rest ih =>
      intro hno hreg
      have hmt : (m.type == "result") = false := by
        have := hno m (List.mem_cons_self m rest)
        simpa using this
      have hnr : ∀ x ∈ rest, x.type ≠ "result" :=
        fun x hx => hno x (List.mem_cons_of_mem m hx)
      cases hcu : updateTaskFromMessage p m with
      | some ct =>
          obtain ⟨hid, hst⟩ := updateTaskFromMessage_some p m ct hcu
          have hstep : handleTaskCompletionStep spec [ct] (some ct) m
              = .ok [ct] := by
            simp only [handleTaskCompletionStep, hmt, Bool.false_eq_true,
              if_false]
          have hone : runExec p spec [] false none (m :: rest)
              = runExec p spec [ct] true (some ct) rest := by
            rw [runExec, hcu]
            simp only [regAfterAdd, Bool.not_false, if_true, addTask,
              List.nil_append, hstep, Option.isSome_some, Bool.or_true]
          rw [hone, runExec_resolved_noResult p spec rest [ct] (some ct) hnr]
          cases rest with
          | nil =>
              refine ⟨ct, m, rfl, ?_, hid, hst⟩
              rw [hcu]
              rfl
          | cons b r2 =>
              rcases List.eq_nil_or_concat (b :: r2) with h | ⟨l2, a2, h⟩
              · exact absurd h (List.cons_ne_nil b r2)
              · refine ⟨ct, a2, ?_, ?_, hid, hst⟩
                · rw [List.getLast?_cons_cons, h, List.concat_eq_append,
                    List.getLast?_concat]
                · rw [h, List.concat_eq_append, List.getLast?_concat]
      | none =>
          have hrm : registersMsg m = false := by
            by_contra hc
            rw [updateTaskFromMessage, if_pos (by simpa using hc)] at hcu
            exact Option.noConfusion hcu
          obtain ⟨m0, hm0, hrm0⟩ := hreg
          have hm0r : m0 ∈ rest := by
            rcases List.mem_cons.mp hm0 with h | h
            · subst h
              rw [hrm0] at hrm
              exact Bool.noConfusion hrm
            · exact h
          have hone : runExec p spec [] false none (m :: rest)
              = runExec p spec [] false none rest := by
            rw [runExec, hcu]
            rfl
          obtain ⟨rt, lm, hlm, hrun, hid, hst⟩ := ih hnr ⟨m0, hm0r, hrm0⟩
          cases rest with
          | nil => exact absurd hm0r (List.not_mem_nil m0)
          | cons b r2 =>
              refine ⟨rt, lm, ?_, ?_, hid, hst⟩
              · rw [List.getLast?_cons_cons]
                exact hlm
              · rw [hone]
                exact hrun

/-- C5 amended: after a running task was registered, a stream that ends
without ever producing a `result` message leaves the task `completed`
when the final message is a registering (`user`/`assistant` with uuid)
message — `completeTaskExecution` completes the current task — and
leaves it `running` otherwise (the final `updateTaskFromMessage` returns
nothing, so stream end performs no transition); the task is never moved
to `paused` at stream end. -/
theorem streamEnd_completes (p : CCTask) (spec : SpecOracle)
    (msgs : List LoopMsg)
    (hno : ∀ m ∈ msgs, m.type ≠ "result")
    (hreg : ∃ m ∈ msgs, registersMsg m = true) :
    (findTaskById (executeTaskModel p spec msgs) p.id).map
        (fun x => x.status)
      = some (if (msgs.getLast?.map registersMsg).getD false
          then TaskStatus.completed else TaskStatus.running) := by
  obtain ⟨rt, lm, hlm, hrun, hid, hst⟩ :=
    runExec_start_noResult p spec msgs hno hreg
  rw [executeTaskModel, hrun, hlm]
  cases hcu : updateTaskFromMessage p lm with
  | none =>
      have hrlm : registersMsg lm = false := by
        by_contra hc
        rw [updateTaskFromMessage, if_pos (by simpa using hc)] at hcu
        exact Option.noConfusion hcu
      have hbeq : (rt.id == p.id) = true := by
        rw [hid]
        exact beq_self_eq_true _
      have hfrt : findTaskById [rt] p.id = some rt := by
        unfold findTaskById
        simp only [List.find?, hbeq]
      simp only [hfrt, Option.map_some', hrlm, Option.getD_some, hst,
        Bool.false_eq_true, if_false]
  | some ct =>
      have hrlm : registersMsg lm = true := by
        by_contra hc
        rw [updateTaskFromMessage,
          if_neg (by simpa using hc)] at hcu
        exact Option.noConfusion hcu
      obtain ⟨hcid, _⟩ := updateTaskFromMessage_some p lm ct hcu
      have hbeq : (rt.id == ct.id) = true := by
        rw [hid, hcid]
        exact beq_self_eq_true _
      have hfrt : findTaskById [rt] ct.id = some rt := by
        unfold findTaskById
        simp only [List.find?, hbeq]
      have hstat : (rt.status == TaskStatus.running
          || rt.status == TaskStatus.paused) = true := by
        rw [hst]
        rfl
      have huid : ({ rt with status := TaskStatus.completed }).id
          = rt.id := rfl
      have hfrt2 : findTaskById [rt]
          ({ rt with status := TaskStatus.completed }).id = some rt := by
        rw [huid]
        unfold findTaskById
        simp only [List.find?, beq_self_eq_true]
      have hcond : (rt.id == ({ rt with status := TaskStatus.completed }).id)
          = true := by
        rw [huid]
        exact beq_self_eq_true _
      have hcomp : completeTask [rt] ct.id
          = .ok [{ rt with status := TaskStatus.completed }] := by
        simp only [completeTask, hfrt, hstat, if_true, updateTask, hfrt2,
          replaceTask, hcond]
      have hbeq2 : (({ rt with status := TaskStatus.completed }).id == p.id)
          = true := by
        rw [huid, hid]
        exact beq_self_eq_true _
      have hffin : findTaskById [{ rt with status := TaskStatus.completed }]
          p.id = some { rt with status := TaskStatus.completed } := by
        unfold findTaskById
        simp only [List.find?, hbeq2]
      simp only [hcomp, hffin, Option.map_some', hrlm, Option.getD_some,
        if_true]

/-- Pending task of the C5 scenario (no completion condition). -/
def pTaskC5 : CCTask :=
  { id := "t5", projectId := "p5", baseSessionId := none, cwd := "/w5"
    completionCondition := none, originalPrompt := some "go"
    autoContinue := some false, lastActivity := 0, status := .pending
    sessionId := none, userMessageId := none }

/-- Trivial spec-workflow oracle (never reached in the C5 scenarios,
whose streams carry no `result` message). -/
def specOracleNop : SpecOracle := fun reg _ => .ok reg

/-- Registering assistant message of the C5 scenario. -/
def msgC5 : LoopMsg :=
  { type := "assistant", uuid := some "u5", session_id := some "s5" }

/-- C5 counterexample: a stream holding one registering assistant message
and no `result` message ends with the task `completed`, where the claim
demands `paused`. -/
theorem streamEnd_without_result_cex :
    (findTaskById (executeTaskModel pTaskC5 specOracleNop [msgC5])
        "t5").map (fun x => x.status)
      = some TaskStatus.completed
    ∧ some TaskStatus.completed ≠ some TaskStatus.paused := by
  refine ⟨rfl, ?_⟩
  decide

/-- C5 amended witness: instantiated on the one-message registering
stream, whose final message registers, so the task ends `completed`. -/
theorem streamEnd_completes_witness :
    (findTaskById (executeTaskModel pTaskC5 specOracleNop [msgC5])
        pTaskC5.id).map (fun x => x.status)
      = some (if (([msgC5].getLast?).map registersMsg).getD false
          then TaskStatus.completed else TaskStatus.running) :=
  streamEnd_completes pTaskC5 specOracleNop [msgC5]
    (by
      intro m hm
      rw [List.mem_singleton] at hm
      subst hm
      decide)
    ⟨msgC5, List.mem_singleton.mpr rfl, by decide⟩

/-- In-loop pass of the draft controller's `executeTask` (part_006,
state-driven variant): per message, the decision step runs with
`isLastMessage = false` and executes its decision exactly when a current
task is derived (`registersMsg`) and the decision carries
`shouldExecute`; the pair of the executed events (message index, action)
and the last-message record `(index, message, wasExecuted)` is
returned.  The composition of state detector, workflow detector and
orchestrator is abstracted as the decision function `decideFn`, the
workflow detector reading the transcript from outside the engine. -/
def runC2 (decideFn : LoopMsg → Bool → TaskDecision) :
    Nat → List LoopMsg →
    (List (Nat × TaskAction) × Option (Nat × LoopMsg × Bool))
  | _, [] => ([], none)
  | i, m :: rest =>
      (((if registersMsg m && (decideFn m false).shouldExecute then
          [(i, (decideFn m false).action)]
        else []) ++ (runC2 decideFn (i + 1) rest).1),
        some (match (runC2 decideFn (i + 1) rest).2 with
          | some l => l
          | none =>
              (i, m, registersMsg m && (decideFn m false).shouldExecute)))

/-- Stream-end step of the draft controller: the final decision (with
`isLastMessage = true`) for the last message runs only when that message
derived a current task and the in-loop decision for it was not executed
(`!finalDecision?.wasExecuted`). -/
def streamEndExecs (decideFn : LoopMsg → Bool → TaskDecision)
    (execs : List (Nat × TaskAction)) :
    Option (Nat × LoopMsg × Bool) → List (Nat × TaskAction)
  | none => execs
  | some (i, m, ex) =>
      if registersMsg m && !ex then
        if (decideFn m true).shouldExecute then
          execs ++ [(i, (decideFn m true).action)]
        else execs
      else execs

/-- Executed decisions of one full run of the draft controller's loop
(in-loop pass plus stream-end step). -/
def executeTaskP6 (decideFn : LoopMsg → Bool → TaskDecision)
    (msgs : List LoopMsg) : List (Nat × TaskAction) :=
  streamEndExecs decideFn (runC2 decideFn 0 msgs).1
    (runC2 decideFn 0 msgs).2

/-- Structural invariants of the in-loop pass: executed indices lie in
the processed window and increase strictly; the last-message record
carries the final index, and when its decision was not executed no
in-loop execution carries that index. -/
lemma runC2_spec (decideFn : LoopMsg → Bool → TaskDecision) :
    ∀ (msgs : List LoopMsg) (i0 : Nat),
      (∀ q ∈ (runC2 decideFn i0 msgs).1,
        i0 ≤ q.1 ∧ q.1 < i0 + msgs.length)
      ∧ List.Pairwise (fun a b => a.1 < b.1) (runC2 decideFn i0 msgs).1
      ∧ ((runC2 decideFn i0 msgs).2 = none → msgs = [])
      ∧ (∀ j m ex, (runC2 decideFn i0 msgs).2 = some (j, m, ex) →
          j + 1 = i0 + msgs.length
          ∧ (ex = false →
              ∀ q ∈ (runC2 decideFn i0 msgs).1, q.1 < j)) := by
  intro msgs
  induction msgs with
  | nil =>
      intro i0
      refine ⟨?_, List.Pairwise.nil, fun _ => rfl, ?_⟩
      · intro q hq
        exact absurd hq (List.not_mem_nil q)
      · intro j m ex h
        exact Option.noConfusion h
  | cons m rest ih =>
      intro i0
      obtain ⟨hb, hp, hn, hsm⟩ := ih (i0 + 1)
      have hhd : ∀ q ∈ (if registersMsg m
            && (decideFn m false).shouldExecute then
          [(i0, (decideFn m false).action)] else []), q.1 = i0 := by
        intro q hq
        by_cases hex : (registersMsg m
            && (decideFn m false).shouldExecute) = true
        · rw [if_pos hex] at hq
          rw [List.mem_singleton] at hq
          rw [hq]
        · rw [if_neg hex] at hq
          exact absurd hq (List.not_mem_nil q)
      refine ⟨?_, ?_, ?_, ?_⟩
      · intro q hq
        rw [runC2] at hq
        rcases List.mem_append.mp hq with h | h
        · rw [hhd q h]
          exact ⟨le_refl i0, by
            rw [List.length_cons]
            omega⟩
        · obtain ⟨h1, h2⟩ := hb q h
          refine ⟨by omega, ?_⟩
          rw [List.length_cons]
          omega
      · rw [runC2]
        apply List.pairwise_append.mpr
        refine ⟨?_, hp, ?_⟩
        · by_cases hex : (registersMsg m
              && (decideFn m false).shouldExecute) = true
          · rw [if_pos hex]
            exact List.pairwise_singleton _ _
          · rw [if_neg hex]
            exact List.Pairwise.nil
        · intro a ha b hbm
          rw [hhd a ha]
          obtain ⟨h1, _⟩ := hb b hbm
          omega
      · intro h
        rw [runC2] at h
        exact Option.noConfusion h
      · intro j m2 ex h
        rw [runC2] at h
        have h2 := Option.some.inj h
        cases hlast : (runC2 decideFn (i0 + 1) rest).2 with
        | some l =>
            rw [hlast] at h2
            have hl : l = (j, m2, ex) := h2
            rw [hl] at hlast
            obtain ⟨hj, hq⟩ := hsm j m2 ex hlast
            have hrne : rest ≠ [] := by
              intro hre
              rw [hre] at hlast
              exact Option.noConfusion hlast
            have hrl : 1 ≤ rest.length := by
              cases rest with
              | nil => exact absurd rfl hrne
              | cons x xs =>
                  rw [List.length_cons]
                  omega
            refine ⟨by rw [List.length_cons]; omega, ?_⟩
            intro hexf q hq2
            rw [runC2] at hq2
            rcases List.mem_append.mp hq2 with hh | hh
            · rw [hhd q hh]
              omega
            · exact hq hexf q hh
        | none =>
            rw [hlast] at h2
            have hji : j = i0 := (congrArg (fun t => t.1) h2).symm
            have hex : ex = (registersMsg m
                && (decideFn m false).shouldExecute) :=
              (congrArg (fun t => t.2.2) h2).symm
            have hre : rest = [] := hn hlast
            subst hre
            refine ⟨by rw [hji]; rfl, ?_⟩
            intro hexf q hq2
            rw [runC2] at hq2
            rw [← hex, hexf] at hq2
            simp only [Bool.false_eq_true, if_false,
              List.nil_append] at hq2
            rw [runC2] at hq2
            exact absurd hq2 (List.not_mem_nil q)

/-- C2: over any message stream and any decision function, the executed
decisions of one full run of the draft controller's loop (in-loop pass
plus the stream-end step guarded by the carried `wasExecuted` flag)
contain at most one execution per message event: no event index is
executed twice, so in particular the decision-apply step runs at most
once per `result` message. -/
theorem decisionApply_atMostOnce (decideFn : LoopMsg → Bool → TaskDecision)
    (msgs : List LoopMsg) (i : Nat) :
    ((executeTaskP6 decideFn msgs).map Prod.fst).count i ≤ 1 := by
  obtain ⟨hb, hp, hn, hsm⟩ := runC2_spec decideFn msgs 0
  have hpfin : List.Pairwise (fun a b => a.1 < b.1)
      (executeTaskP6 decideFn msgs) := by
    rw [executeTaskP6]
    cases hlast : (runC2 decideFn 0 msgs).2 with
    | none =>
        rw [streamEndExecs]
        exact hp
    | some tri =>
        obtain ⟨j, m, ex⟩ := tri
        rw [streamEndExecs]
        by_cases hg : (registersMsg m && !ex) = true
        · rw [if_pos hg]
          have hexf : ex = false := by
            cases ex
            · rfl
            · rw [Bool.and_comm] at hg
              simp at hg
          obtain ⟨hj, hlt⟩ := hsm j m ex hlast
          by_cases hse : (decideFn m true).shouldExecute = true
          · rw [if_pos hse]
            apply List.pairwise_append.mpr
            refine ⟨hp, List.pairwise_singleton _ _, ?_⟩
            intro a ha b hbm
            rw [List.mem_singleton] at hbm
            rw [hbm]
            exact hlt hexf a ha
          · rw [if_neg hse]
            exact hp
        · rw [if_neg hg]
          exact hp
  have hnodup : ((executeTaskP6 decideFn msgs).map Prod.fst).Nodup := by
    apply List.Pairwise.imp (fun h => Nat.ne_of_lt h)
    exact List.Pairwise.map Prod.fst (fun a b h => h) hpfin
  exact List.nodup_iff_count_le_one.mp hnodup i
